import Mathlib

/-!
Verification of the natural-language specification of
`src/backend/src/routes/manager.py` (class `LanceDBManager`) against the
source code, via a shallow embedding in Lean 4.

Modelling conventions:
* A record (Python `Dict[str, Any]`) is an association list from field
  names to values; values are modelled as strings (the unique-field and
  predicate machinery in the source only ever string-formats them).
* A table is the list of its rows; the database is an association list
  from table names to tables.
* Python exceptions are modelled with `Except PyError`; an exception that
  the source catches with `except Exception` is turned back into a normal
  return value exactly where the source's handler sits.
* Engine failures (the LanceDB client raising during a scan, a write, a
  drop, ...) are injected through explicit `Option String` parameters:
  `some msg` makes that engine call raise, `none` makes it succeed.
-/

set_option autoImplicit false

namespace LanceDBManager

abbrev Field := String
abbrev Value := String

/-- A record: Python `Dict[str, Any]`, modelled as an association list. -/
abbrev Record := List (Field × Value)

/-- A table is the list of its rows. -/
abbrev Table := List Record

/-- The database: table name to table contents. -/
abbrev DB := List (String × Table)

/-- Python `item[f]`: `some v` when present, `none` models a `KeyError`. -/
def Record.getField (r : Record) (f : Field) : Option Value :=
  (r.find? (fun p => p.1 = f)).map (fun p => p.2)

/-- The Python exceptions the manager raises or catches. -/
inductive PyError where
  | valueError (msg : String)
  | keyError (k : String)
  | engineError (msg : String)
deriving Repr, DecidableEq

/-- The comprehension `[item[f] for item in rows]`: the unique-field value
of every row, raising `KeyError` at the first row missing the field.
`_get_unique_ids` (manager.py lines 62-65) is this applied to a full table
scan, and `add_data` line 151 is this applied to the input batch. -/
def collectIds (f : Field) : List Record → Except PyError (List Value)
  | [] => .ok []
  | r :: rs =>
    match r.getField f with
    | none => .error (.keyError f)
    | some v =>
      match collectIds f rs with
      | .ok vs => .ok (v :: vs)
      | .error e => .error e

/-- `_get_unique_ids(table, unique_field)` (manager.py lines 62-65): reads
the whole unique-field column. A full scan bounded by `count_rows` returns
every row, so this is `collectIds` over the table. -/
def getUniqueIds (t : Table) (f : Field) : Except PyError (List Value) :=
  collectIds f t

/-- The body of the `try` block of `add_data` (manager.py lines 147-166):
returns the table after the call together with the list of rows passed to
`table.add` (empty when the no-new-entries early return fires).
`scanErr`/`writeErr` inject an engine failure into the column scan and the
`table.add` write respectively.

Line 154, `new_ids = list(set(new_ids) - set(existing_ids))`, is modelled
with `List.dedup` plus a membership filter: the Python set conversion
fixes no order and `new_ids` is only ever used for membership tests
(line 159), which `dedup`/`filter` reproduce exactly. -/
def addDataCore (t : Table) (data : List Record) (uniqueField : Field)
    (scanErr writeErr : Option String) : Except PyError (Table × List Record) :=
  match scanErr with
  | some m => .error (.engineError m)
  | none =>
    match getUniqueIds t uniqueField with
    | .error e => .error e
    | .ok existingIds =>
      match collectIds uniqueField data with
      | .error e => .error e
      | .ok newIdsAll =>
        let newIds := newIdsAll.dedup.filter (fun v => decide (v ∉ existingIds))
        let newData := data.filter (fun item =>
          match item.getField uniqueField with
          | some v => decide (v ∈ newIds)
          | none => false)
        if newData.length = 0 then
          .ok (t, [])
        else
          match writeErr with
          | some m => .error (.engineError m)
          | none => .ok (t ++ newData, newData)

/-- Outcome of one `add_data` call: the Python return value (`none`
models Python `None`; an uncaught exception is `.error`), the table after
the call, and the rows that were appended. -/
structure AddResult where
  ret : Except PyError (Option Int)
  table : Table
  appended : List Record
deriving Repr

/-- `add_data(table_name, data, unique_field)` (manager.py lines 132-169).
The empty-field `ValueError` (line 144-145) is raised before the `try`
block and propagates; everything raised inside the `try` block is caught
and logged (line 168-169), after which the method falls off the end and
returns `None`. Both the early return (line 162) and the success path
(line 165-166) also return `None`. -/
def addData (t : Table) (data : List Record) (uniqueField : Field)
    (scanErr writeErr : Option String) : AddResult :=
  if uniqueField = "" then
    { ret := .error (.valueError "Unique field must be specified to check for duplicates.")
      table := t
      appended := [] }
  else
    match addDataCore t data uniqueField scanErr writeErr with
    | .ok (t2, app) => { ret := .ok none, table := t2, appended := app }
    | .error _ => { ret := .ok none, table := t, appended := [] }

/-- One issued `table.update(values=updates, where=where_clause)` call
(manager.py line 202): the patch fields and the predicate string. -/
structure UpdateCall where
  values : Record
  whereClause : String
deriving Repr, DecidableEq

/-- The loop body of `update_data` for one row (manager.py lines 193-203):
`row[unique_field]` (a possible `KeyError`), the remaining fields, and the
string-quoted predicate built by line 199. -/
def updateRow (uniqueField : Field) (row : Record) : Except PyError UpdateCall :=
  match row.getField uniqueField with
  | none => .error (.keyError uniqueField)
  | some v =>
    .ok { values := row.filter (fun p => decide (p.1 ≠ uniqueField))
          whereClause := uniqueField ++ " = \"" ++ v ++ "\"" }

/-- The `for row in data` loop of `update_data` (manager.py lines 192-203):
returns the update calls issued so far paired with either the final
`update_count` or the first exception. `updErr = some i` injects an engine
failure into the `i`-th `table.update` call (0-based). -/
def updateLoop (uniqueField : Field) (updErr : Option Nat) (idx : Nat) :
    List Record → List UpdateCall × Except PyError Nat
  | [] => ([], .ok 0)
  | row :: rest =>
    match updateRow uniqueField row with
    | .error e => ([], .error e)
    | .ok call =>
      if updErr = some idx then ([], .error (.engineError "update failed"))
      else
        match updateLoop uniqueField updErr (idx + 1) rest with
        | (calls, .ok n) => (call :: calls, .ok (n + 1))
        | (calls, .error e) => (call :: calls, .error e)

/-- `update_data(table_name, data, unique_field)` (manager.py lines
172-210): the empty-field `ValueError` (lines 184-185) is raised before
the `try` block; any exception inside the loop is logged and re-raised
(lines 208-210); on success the method returns `update_count` (line 206).
The first component lists the `table.update` calls actually issued. -/
def updateData (data : List Record) (uniqueField : Field) (updErr : Option Nat) :
    List UpdateCall × Except PyError Nat :=
  if uniqueField = "" then
    ([], .error (.valueError "Unique field must be specified for updates."))
  else
    updateLoop uniqueField updErr 0 data

/-- The query that `fetch_data` builds before executing it
(manager.py lines 238-265): projected columns, row-id decoration, the
applied `where` clause, and the `limit`/`offset` pagination. -/
structure FetchQuery where
  columns : List String
  withRowId : Bool
  whereFilter : Option String
  limit : Int
  offset : Option Int
deriving Repr, DecidableEq

/-- `fetch_data` query construction (manager.py lines 238-265).
`schemaNames` is `table.schema.names`, `rowCount` is
`table.count_rows()`. Python `if filter:` is falsy both for `None` and
for the empty string, hence `filterTruthy`. When `per_page != -1` the
query gets `limit(per_page).offset((page - 1) * per_page)`; when
`per_page == -1` it gets `limit(table.count_rows())` and no offset
(lines 253-265). -/
def fetchQuery (schemaNames : List String) (rowCount : Nat) (page perPage : Int)
    (filterStr : Option String) (columnsToExclude : List String) : FetchQuery :=
  let columnsToInclude := schemaNames.filter (fun c => decide (c ∉ columnsToExclude))
  let withRowId := !decide ("_rowid" ∈ columnsToExclude)
  let filterTruthy :=
    match filterStr with
    | none => false
    | some s => !(s == "")
  if filterTruthy then
    if perPage ≠ -1 then
      { columns := columnsToInclude, withRowId := withRowId, whereFilter := filterStr
        limit := perPage, offset := some ((page - 1) * perPage) }
    else
      { columns := columnsToInclude, withRowId := withRowId, whereFilter := filterStr
        limit := (rowCount : Int), offset := none }
  else
    if perPage ≠ -1 then
      { columns := columnsToInclude, withRowId := withRowId, whereFilter := none
        limit := perPage, offset := some ((page - 1) * perPage) }
    else
      { columns := columnsToInclude, withRowId := withRowId, whereFilter := none
        limit := (rowCount : Int), offset := none }

/-- The projection of a row onto the subset columns that
`df.drop_duplicates(subset=subset)` compares by (manager.py line 377). -/
def keyOf (subset : List String) (r : Record) : List (Option Value) :=
  subset.map (fun c => r.getField c)

/-- `df.drop_duplicates(subset=subset)` keeping the first occurrence of
each subset-projection: `seen` accumulates the keys of the rows kept so
far. -/
def dropDupAux (subset : List String) (seen : List (List (Option Value))) :
    Table → Table
  | [] => []
  | r :: rs =>
    let k := keyOf subset r
    if k ∈ seen then dropDupAux subset seen rs
    else r :: dropDupAux subset (k :: seen) rs

def dropDuplicates (subset : List String) (t : Table) : Table :=
  dropDupAux subset [] t

/-- The number of duplicate rows of a table with respect to the subset
columns: rows having an earlier row with the same subset projection
(every row after the first of its group counts). `seen` accumulates the
keys of all rows already passed. -/
def countDupsAux (subset : List String) (seen : List (List (Option Value))) :
    Table → Nat
  | [] => 0
  | r :: rs =>
    let k := keyOf subset r
    (if k ∈ seen then 1 else 0) + countDupsAux subset (k :: seen) rs

def countDups (subset : List String) (t : Table) : Nat :=
  countDupsAux subset [] t

/-- Outcome of one `delete_duplicates` call: Python return value, the
table after the call, and whether the overwrite write was issued. -/
structure DedupResult where
  ret : Except PyError Nat
  table : Table
  rewrote : Bool
deriving Repr

/-- `delete_duplicates(table_name, subset)` (manager.py lines 359-394):
read the whole table, drop duplicate rows by the subset columns keeping
first occurrences, and only when `duplicates_removed > 0` overwrite the
table with the deduplicated rows; return `duplicates_removed`.
`readErr` injects an engine failure into the read; exceptions are logged
and re-raised (lines 392-394). -/
def deleteDuplicates (t : Table) (subset : List String) (readErr : Option String) :
    DedupResult :=
  match readErr with
  | some m => { ret := .error (.engineError m), table := t, rewrote := false }
  | none =>
    let dfUnique := dropDuplicates subset t
    let duplicatesRemoved := t.length - dfUnique.length
    if duplicatesRemoved > 0 then
      { ret := .ok duplicatesRemoved, table := dfUnique, rewrote := true }
    else
      { ret := .ok duplicatesRemoved, table := t, rewrote := false }

/-- `self.db.create_table(table_name, schema=schema, mode=mode)`
(manager.py line 125) as the engine executes it: `create` mode fails on a
name collision, `overwrite` mode replaces the table. The schema itself is
opaque to the manager and a fresh table starts empty here. -/
def engineCreate (db : DB) (name : String) (mode : String) : Except PyError DB :=
  if db.any (fun p => p.1 == name) then
    if mode == "overwrite" then
      .ok ((name, []) :: db.filter (fun p => !(p.1 == name)))
    else
      .error (.engineError ("Table " ++ name ++ " already exists"))
  else
    .ok ((name, []) :: db)

/-- `create_table(table_name, schema, overwrite)` (manager.py lines
114-128): any exception from the engine call is caught and logged (lines
127-128) and the method returns `None` on every path. `engErr` injects an
unconditional engine failure. -/
def createTable (db : DB) (name : String) (overwrite : Bool) (engErr : Option String) :
    Except PyError (Option Nat) × DB :=
  let mode := if overwrite then "overwrite" else "create"
  let res : Except PyError DB :=
    match engErr with
    | some m => .error (.engineError m)
    | none => engineCreate db name mode
  match res with
  | .ok db2 => (.ok none, db2)
  | .error _ => (.ok none, db)

/-- `delete_table(table_name)` (manager.py lines 326-339): returns `True`
on success; any engine exception is logged and re-raised. -/
def deleteTable (db : DB) (name : String) (engErr : Option String) :
    Except PyError Bool × DB :=
  let res : Except PyError DB :=
    match engErr with
    | some m => .error (.engineError m)
    | none =>
      if db.any (fun p => p.1 == name) then
        .ok (db.filter (fun p => !(p.1 == name)))
      else
        .error (.engineError ("Table " ++ name ++ " was not found"))
  match res with
  | .ok db2 => (.ok true, db2)
  | .error e => (.error e, db)

/-- `delete_rows(table_name, condition)` (manager.py lines 341-357):
`table.delete(where=condition)` with the engine's reading of the
predicate string passed in as the opaque `cond`; exceptions are logged
and re-raised, and no count is returned. -/
def deleteRows (db : DB) (name : String) (cond : Record → Bool) (engErr : Option String) :
    Except PyError Unit × DB :=
  let res : Except PyError DB :=
    match engErr with
    | some m => .error (.engineError m)
    | none =>
      match db.find? (fun p => p.1 == name) with
      | none => .error (.engineError ("Table " ++ name ++ " was not found"))
      | some _ =>
        .ok (db.map (fun p => if p.1 == name then (p.1, p.2.filter (fun r => !cond r)) else p))
  match res with
  | .ok db2 => (.ok (), db2)
  | .error e => (.error e, db)

/-- `list_tables()` (manager.py lines 396-407): returns all table names;
exceptions are logged and re-raised. -/
def listTables (db : DB) (engErr : Option String) : Except PyError (List String) :=
  match engErr with
  | some m => .error (.engineError m)
  | none => .ok (db.map (fun p => p.1))

/-! Helper lemmas about the column scan `collectIds`. -/

theorem collectIds_ok_forall {f : Field} {l : List Record} {ids : List Value}
    (h : collectIds f l = .ok ids) :
    ∀ r ∈ l, ∃ v, r.getField f = some v ∧ v ∈ ids := by
  induction l generalizing ids with
  | nil => intro r hr; exact absurd hr (List.not_mem_nil r)
  | cons a rest ih =>
    intro r hr
    rw [collectIds] at h
    cases ha : a.getField f with
    | none => rw [ha] at h; exact absurd h (by simp)
    | some v =>
      rw [ha] at h
      cases hrest : collectIds f rest with
      | error e => rw [hrest] at h; exact absurd h (by simp)
      | ok vs =>
        rw [hrest] at h
        cases h
        rcases List.mem_cons.mp hr with rfl | hr2
        · exact ⟨v, ha, List.mem_cons_self v vs⟩
        · rcases ih hrest r hr2 with ⟨w, hw1, hw2⟩
          exact ⟨w, hw1, List.mem_cons_of_mem v hw2⟩

theorem collectIds_mem {f : Field} {l : List Record} {ids : List Value}
    (h : collectIds f l = .ok ids) :
    ∀ v ∈ ids, ∃ r ∈ l, r.getField f = some v := by
  induction l generalizing ids with
  | nil =>
    rw [collectIds] at h
    cases h
    intro v hv
    exact absurd hv (List.not_mem_nil v)
  | cons a rest ih =>
    intro v hv
    rw [collectIds] at h
    cases ha : a.getField f with
    | none => rw [ha] at h; exact absurd h (by simp)
    | some w =>
      rw [ha] at h
      cases hrest : collectIds f rest with
      | error e => rw [hrest] at h; exact absurd h (by simp)
      | ok vs =>
        rw [hrest] at h
        cases h
        rcases List.mem_cons.mp hv with rfl | hv2
        · exact ⟨a, List.mem_cons_self a rest, ha⟩
        · rcases ih hrest v hv2 with ⟨r, hr1, hr2⟩
          exact ⟨r, List.mem_cons_of_mem a hr1, hr2⟩

theorem collectIds_isSome_ok {f : Field} {l : List Record}
    (h : ∀ r ∈ l, (r.getField f).isSome) :
    ∃ ids, collectIds f l = .ok ids := by
  induction l with
  | nil => exact ⟨[], rfl⟩
  | cons a rest ih =>
    rcases Option.isSome_iff_exists.mp (h a (List.mem_cons_self a rest)) with ⟨v, hv⟩
    rcases ih (fun r hr => h r (List.mem_cons_of_mem a hr)) with ⟨vs, hvs⟩
    exact ⟨v :: vs, by rw [collectIds, hv, hvs]⟩

theorem collectIds_append {f : Field} {l1 l2 : List Record} {i1 i2 : List Value}
    (h1 : collectIds f l1 = .ok i1) (h2 : collectIds f l2 = .ok i2) :
    collectIds f (l1 ++ l2) = .ok (i1 ++ i2) := by
  induction l1 generalizing i1 with
  | nil => rw [collectIds] at h1; cases h1; simpa using h2
  | cons a rest ih =>
    rw [collectIds] at h1
    cases ha : a.getField f with
    | none => rw [ha] at h1; exact absurd h1 (by simp)
    | some v =>
      rw [ha] at h1
      cases hrest : collectIds f rest with
      | error e => rw [hrest] at h1; exact absurd h1 (by simp)
      | ok vs =>
        rw [hrest] at h1
        cases h1
        rw [List.cons_append, collectIds, ha, ih hrest]
        rfl

/-- Inversion of a successful `add_data` try-block: the scan succeeded,
all input rows have the unique field, the appended rows are exactly the
source's line-159 filter, and the resulting table is the old table plus
the appended rows. A nonempty append moreover needs the write to succeed. -/
theorem addDataCore_inv {t : Table} {data : List Record} {u : Field}
    {sE wE : Option String} {t2 : Table} {app : List Record}
    (h : addDataCore t data u sE wE = .ok (t2, app)) :
    ∃ existingIds newIdsAll,
      sE = none ∧
      getUniqueIds t u = .ok existingIds ∧
      collectIds u data = .ok newIdsAll ∧
      app = data.filter (fun item =>
        match item.getField u with
        | some v => decide (v ∈ newIdsAll.dedup.filter (fun w => decide (w ∉ existingIds)))
        | none => false) ∧
      t2 = t ++ app ∧
      (app ≠ [] → wE = none) := by
  cases sE with
  | some m => rw [addDataCore] at h; exact absurd h (by simp)
  | none =>
    rw [addDataCore] at h
    cases hE : getUniqueIds t u with
    | error e => rw [hE] at h; exact absurd h (by simp)
    | ok existingIds =>
      rw [hE] at h
      cases hN : collectIds u data with
      | error e => rw [hN] at h; exact absurd h (by simp)
      | ok newIdsAll =>
        rw [hN] at h
        simp only at h
        refine ⟨existingIds, newIdsAll, rfl, rfl, rfl, ?_⟩
        split at h
        · rename_i hlen
          cases h
          have : data.filter (fun item =>
              match item.getField u with
              | some v => decide (v ∈ newIdsAll.dedup.filter (fun w => decide (w ∉ existingIds)))
              | none => false) = [] := List.length_eq_zero.mp hlen
          exact ⟨this.symm, by simp, fun hne => absurd rfl hne⟩
        · cases hw : wE with
          | some m => rw [hw] at h; exact absurd h (by simp)
          | none =>
            rw [hw] at h
            cases h
            exact ⟨rfl, rfl, fun _ => rfl⟩

/-- With a non-empty unique field, `add_data` returns `None` on every
path: early return, successful write, or caught exception. -/
theorem addData_ret_none {t : Table} {data : List Record} {u : Field}
    {sE wE : Option String} (h : u ≠ "") :
    (addData t data u sE wE).ret = .ok none := by
  rw [addData, if_neg h]
  split <;> rfl

/-- When the scan raises, `add_data` leaves the table alone and appends
nothing. -/
theorem addData_scanErr (t : Table) (data : List Record) (u : Field)
    (m : String) (wE : Option String) :
    (addData t data u (some m) wE).table = t ∧
    (addData t data u (some m) wE).appended = [] := by
  rw [addData]
  split
  · exact ⟨rfl, rfl⟩
  · split
    · rename_i t2 app heq
      rcases addDataCore_inv heq with ⟨_, _, hsE, _⟩
      exact absurd hsE (by simp)
    · exact ⟨rfl, rfl⟩

/-- When the write raises, `add_data` leaves the table alone: nothing else
in the try block mutates it. -/
theorem addData_writeErr_table (t : Table) (data : List Record) (u : Field)
    (sE : Option String) (m : String) :
    (addData t data u sE (some m)).table = t := by
  rw [addData]
  split
  · rfl
  · split
    · rename_i t2 app heq
      rcases addDataCore_inv heq with ⟨_, _, _, _, _, happ, ht2, hwE⟩
      by_cases hne : app = []
      · show t2 = t
        rw [ht2, hne, List.append_nil]
      · exact absurd (hwE hne) (by simp)
    · rfl

/-- When every unique-field value occurring in the input already occurs in
the table's unique-field column, `add_data` appends nothing and leaves the
table alone — on the success path because the line-154 set difference is
empty, and on every error path because the write is never reached. -/
theorem addData_all_existing {t : Table} {data : List Record} {u : Field}
    (sE wE : Option String)
    (h : ∀ item ∈ data, ∀ v, item.getField u = some v →
      ∃ r0 ∈ t, r0.getField u = some v) :
    (addData t data u sE wE).appended = [] ∧ (addData t data u sE wE).table = t := by
  rw [addData]
  split
  · exact ⟨rfl, rfl⟩
  · split
    · rename_i t2 app heq
      rcases addDataCore_inv heq with ⟨existingIds, newIdsAll, hsE, hex, hnew, happ, ht2, _⟩
      have hfilter : data.filter (fun item =>
          match item.getField u with
          | some v => decide (v ∈ newIdsAll.dedup.filter (fun w => decide (w ∉ existingIds)))
          | none => false) = [] := by
        rw [List.filter_eq_nil_iff]
        intro item hitem
        cases hv : item.getField u with
        | none => simp
        | some v =>
          simp only [decide_eq_true_eq]
          intro hvmem
          have hv_not_ex : v ∉ existingIds := by
            have := (List.mem_filter.mp hvmem).2
            simpa using this
          rcases h item hitem v hv with ⟨r0, hr0, hr0v⟩
          rcases collectIds_ok_forall hex r0 hr0 with ⟨w, hw1, hw2⟩
          rw [hr0v] at hw1
          cases hw1
          exact hv_not_ex hw2
      have happ2 : app = [] := by rw [happ, hfilter]
      constructor
      · exact happ2
      · show t2 = t
        rw [ht2, happ2, List.append_nil]
    · exact ⟨rfl, rfl⟩

/-- After a successful `add_data` try block, every unique-field value of
the input occurs in the resulting table's unique-field column. -/
theorem addDataCore_covers {t : Table} {data : List Record} {u : Field}
    {sE wE : Option String} {t2 : Table} {app : List Record}
    (heq : addDataCore t data u sE wE = .ok (t2, app)) :
    ∀ item ∈ data, ∀ v, item.getField u = some v →
      ∃ r0 ∈ t2, r0.getField u = some v := by
  rcases addDataCore_inv heq with ⟨existingIds, newIdsAll, hsE, hex, hnew, happ, ht2, _⟩
  intro item hitem v hv
  by_cases hvex : v ∈ existingIds
  · rcases collectIds_mem hex v hvex with ⟨r0, hr0, hr0v⟩
    exact ⟨r0, by rw [ht2]; exact List.mem_append_left _ hr0, hr0v⟩
  · have hvall : v ∈ newIdsAll := by
      rcases collectIds_ok_forall hnew item hitem with ⟨w, hw1, hw2⟩
      rw [hv] at hw1; cases hw1; exact hw2
    have hitem_app : item ∈ app := by
      rw [happ, List.mem_filter]
      refine ⟨hitem, ?_⟩
      rw [hv]
      simp only [decide_eq_true_eq]
      exact List.mem_filter.mpr ⟨List.mem_dedup.mpr hvall, by simpa using hvex⟩
    exact ⟨item, by rw [ht2]; exact List.mem_append_right _ hitem_app, hv⟩

/-- C1: for every table and every input record whose unique-field value
already exists in the table at call time, `add_data` does not insert that
record — no appended row's unique-field value occurs in the table's
unique-field column as it was when the call began. -/
theorem addData_never_inserts_existing
    (t : Table) (data : List Record) (u : Field) (sE wE : Option String)
    (r : Record) (v : Value)
    (hr : r ∈ (addData t data u sE wE).appended)
    (hv : r.getField u = some v) :
    ∀ r0 ∈ t, r0.getField u ≠ some v := by
  intro r0 hr0 hv0
  rw [addData] at hr
  split at hr
  · exact absurd hr (List.not_mem_nil r)
  · split at hr
    · rename_i t2 app heq
      rcases addDataCore_inv heq with ⟨existingIds, newIdsAll, _, hex, _, happ, _, _⟩
      have hr2 : r ∈ app := hr
      rw [happ] at hr2
      have hpred := (List.mem_filter.mp hr2).2
      simp only [hv, decide_eq_true_eq] at hpred
      have hv_not_ex : v ∉ existingIds := by
        simpa using (List.mem_filter.mp hpred).2
      rcases collectIds_ok_forall hex r0 hr0 with ⟨w, hw1, hw2⟩
      rw [hv0] at hw1
      cases hw1
      exact hv_not_ex hw2
    · exact absurd hr (List.not_mem_nil r)

/-- Witness for C1 at a concrete input: the table holds id `a`, the batch
holds id `b`, the appended row is the `b` row and `b` is not in the
table's column. -/
theorem addData_never_inserts_existing_witness :
    ([("id", "b")] : Record) ∈
      (addData [[("id", "a")]] [[("id", "b")]] "id" none none).appended ∧
    ∀ r0 ∈ ([[("id", "a")]] : Table), r0.getField "id" ≠ some "b" :=
  ⟨by decide,
   addData_never_inserts_existing [[("id", "a")]] [[("id", "b")]] "id" none none
     [("id", "b")] "b" (by decide) (by decide)⟩

/-- C2 counterexample: the claim says `add_data("docs",
[{id:a,text:x},{id:a,text:y}], "id")` on an empty table leaves exactly one
row with id `a`; the source's line-159 filter keeps every batch record
whose unique value is in the new-id set, so both records are appended and
the table ends with two rows with id `a`. -/
theorem addData_duplicate_batch_two_rows :
    ((addData ([] : Table)
        [[("id", "a"), ("text", "x")], [("id", "a"), ("text", "y")]]
        "id" none none).table.filter
      (fun r => decide (r.getField "id" = some "a"))).length = 2 := by
  decide

/-- C2 amended: on an empty table, `add_data` appends every batch record
that has the unique field — in-batch duplicate unique values are NOT
collapsed, so the spec's example ends with exactly two rows with id `a`,
one per batch record. -/
theorem addData_empty_table_appends_all
    (data : List Record) (u : Field) (hu : u ≠ "")
    (hall : ∀ item ∈ data, (item.getField u).isSome) :
    (addData [] data u none none).table = data ∧
    (addData [] data u none none).appended = data := by
  by_cases hd : data = []
  · subst hd
    rw [addData, if_neg hu]
    exact ⟨rfl, rfl⟩
  · rcases collectIds_isSome_ok hall with ⟨ids, hids⟩
    have h0 : getUniqueIds ([] : Table) u = Except.ok [] := rfl
    have hfilter : data.filter (fun item =>
        match item.getField u with
        | some v => decide (v ∈ ids.dedup.filter (fun w => decide (w ∉ ([] : List Value))))
        | none => false) = data := by
      rw [List.filter_eq_self]
      intro item hitem
      rcases Option.isSome_iff_exists.mp (hall item hitem) with ⟨v, hv⟩
      rw [hv]
      simp only [decide_eq_true_eq]
      refine List.mem_filter.mpr ⟨List.mem_dedup.mpr ?_, by simp⟩
      rcases collectIds_ok_forall hids item hitem with ⟨w, hw1, hw2⟩
      rw [hv] at hw1
      cases hw1
      exact hw2
    have hcore : addDataCore [] data u none none = .ok (data, data) := by
      simp only [addDataCore, h0, hids]
      rw [hfilter]
      have hlen : data.length ≠ 0 := fun hz => hd (List.length_eq_zero.mp hz)
      rw [if_neg hlen]
      simp
    rw [addData, if_neg hu, hcore]
    exact ⟨rfl, rfl⟩

/-- Witness for the amended C2 at the spec's own example input: both
batch records with id `a` end up in the table. -/
theorem addData_empty_table_appends_all_witness :
    (addData [] [[("id", "a"), ("text", "x")], [("id", "a"), ("text", "y")]]
        "id" none none).table
      = [[("id", "a"), ("text", "x")], [("id", "a"), ("text", "y")]] ∧
    (addData [] [[("id", "a"), ("text", "x")], [("id", "a"), ("text", "y")]]
        "id" none none).appended
      = [[("id", "a"), ("text", "x")], [("id", "a"), ("text", "y")]] :=
  addData_empty_table_appends_all
    [[("id", "a"), ("text", "x")], [("id", "a"), ("text", "y")]] "id"
    (by decide) (by decide)

/-- C3: running `add_data` twice with the same input and unique field
leaves the same table as running it once, and when every unique-field
value of the input already exists in the table, `add_data` inserts zero
rows. -/
theorem addData_idempotent (t : Table) (data : List Record) (u : Field)
    (sE wE : Option String) :
    (addData (addData t data u sE wE).table data u sE wE).table
      = (addData t data u sE wE).table ∧
    ((∀ item ∈ data, ∀ v, item.getField u = some v →
        ∃ r0 ∈ t, r0.getField u = some v) →
      (addData t data u sE wE).appended = [] ∧
      (addData t data u sE wE).table = t) := by
  constructor
  · by_cases hu : u = ""
    · subst hu
      have h1 : (addData t data "" sE wE).table = t := by rw [addData, if_pos rfl]
      rw [h1]
      exact h1
    · cases heq : addDataCore t data u sE wE with
      | error e =>
        have h1 : (addData t data u sE wE).table = t := by
          rw [addData, if_neg hu, heq]
        rw [h1]
        exact h1
      | ok pr =>
        obtain ⟨t2, app⟩ := pr
        have h1 : (addData t data u sE wE).table = t2 := by
          rw [addData, if_neg hu, heq]
        rw [h1]
        exact (addData_all_existing sE wE (addDataCore_covers heq)).2
  · intro h
    exact addData_all_existing sE wE h

/-- Witness for C3 at a concrete input where the single batch id already
exists in the table: nothing is appended and the table is unchanged. -/
theorem addData_idempotent_witness :
    (addData (addData [[("id", "a")]] [[("id", "a"), ("text", "x")]] "id"
        none none).table [[("id", "a"), ("text", "x")]] "id" none none).table
      = (addData [[("id", "a")]] [[("id", "a"), ("text", "x")]] "id"
        none none).table ∧
    (addData [[("id", "a")]] [[("id", "a"), ("text", "x")]] "id"
        none none).appended = [] ∧
    (addData [[("id", "a")]] [[("id", "a"), ("text", "x")]] "id"
        none none).table = [[("id", "a")]] := by
  have h := addData_idempotent [[("id", "a")]] [[("id", "a"), ("text", "x")]]
    "id" none none
  refine ⟨h.1, h.2 ?_⟩
  intro item hitem v hv
  simp only [List.mem_singleton] at hitem
  subst hitem
  have : some "a" = some v := hv
  cases this
  exact ⟨[("id", "a")], by simp, by decide⟩

/-- C4: with a non-empty unique field, an engine error in the scan or the
write is caught and not propagated, the table is untouched, and the
return value is `None` — the same value the nothing-to-add path returns,
so the two outcomes are indistinguishable from the return value. -/
theorem addData_swallows_engine_errors
    (t : Table) (data : List Record) (u : Field) (m : String)
    (sE wE : Option String) (t2 : Table) (data2 : List Record)
    (h : u ≠ "") :
    (addData t data u (some m) wE).ret = .ok none ∧
    (addData t data u (some m) wE).table = t ∧
    (addData t data u (some m) wE).appended = [] ∧
    (addData t data u sE (some m)).ret = .ok none ∧
    (addData t data u sE (some m)).table = t ∧
    ((addData t2 data2 u none none).appended = [] →
      (addData t2 data2 u none none).ret = (addData t data u (some m) wE).ret) := by
  refine ⟨addData_ret_none h, (addData_scanErr t data u m wE).1,
    (addData_scanErr t data u m wE).2, addData_ret_none h,
    addData_writeErr_table t data u sE m, ?_⟩
  intro _
  rw [addData_ret_none h, addData_ret_none h]

/-- Witness for C4 at a concrete input: a scan failure and a write
failure both leave the one-row table alone and return `None`, matching
the nothing-to-add return. -/
theorem addData_swallows_engine_errors_witness :
    (addData [[("id", "a")]] [[("id", "b")]] "id" (some "boom") none).ret
      = .ok none ∧
    (addData [[("id", "a")]] [[("id", "b")]] "id" (some "boom") none).table
      = [[("id", "a")]] ∧
    (addData [[("id", "a")]] [[("id", "b")]] "id" (some "boom") none).appended
      = [] ∧
    (addData [[("id", "a")]] [[("id", "b")]] "id" none (some "boom")).ret
      = .ok none ∧
    (addData [[("id", "a")]] [[("id", "b")]] "id" none (some "boom")).table
      = [[("id", "a")]] ∧
    ((addData [[("id", "a")]] [[("id", "a")]] "id" none none).appended = [] →
      (addData [[("id", "a")]] [[("id", "a")]] "id" none none).ret
        = (addData [[("id", "a")]] [[("id", "b")]] "id" (some "boom") none).ret) :=
  addData_swallows_engine_errors [[("id", "a")]] [[("id", "b")]] "id" "boom"
    none none [[("id", "a")]] [[("id", "a")]] (by decide)

/-- C9: with a non-empty unique field, `add_data` returns `None` in every
outcome — records inserted, nothing to add, or caught engine error —
despite its docstring announcing a row count. -/
theorem addData_returns_none_always (t : Table) (data : List Record)
    (u : Field) (sE wE : Option String) (h : u ≠ "") :
    (addData t data u sE wE).ret = .ok none :=
  addData_ret_none h

/-- Witness for C9 at a concrete input on the successful-insert path. -/
theorem addData_returns_none_always_witness :
    (addData [[("id", "a")]] [[("id", "b")]] "id" none none).ret = .ok none :=
  addData_returns_none_always [[("id", "a")]] [[("id", "b")]] "id" none none
    (by decide)

/-- C5: `fetch_data` paginates with `limit = per_page` and
`offset = (page - 1) * per_page` when `per_page` is not `-1`, and with
`limit = table.count_rows()` and no offset when `per_page == -1`. -/
theorem fetchQuery_pagination (schemaNames : List String) (rowCount : Nat)
    (page perPage : Int) (filterStr : Option String) (excl : List String) :
    (perPage ≠ -1 →
      (fetchQuery schemaNames rowCount page perPage filterStr excl).limit = perPage ∧
      (fetchQuery schemaNames rowCount page perPage filterStr excl).offset
        = some ((page - 1) * perPage)) ∧
    (perPage = -1 →
      (fetchQuery schemaNames rowCount page perPage filterStr excl).limit
        = (rowCount : Int) ∧
      (fetchQuery schemaNames rowCount page perPage filterStr excl).offset
        = none) := by
  rcases filterStr with _ | s
  · constructor
    · intro h
      constructor <;> simp [fetchQuery, h]
    · intro h
      subst h
      constructor <;> simp [fetchQuery]
  · by_cases hs : s = ""
    · subst hs
      constructor
      · intro h
        constructor <;> simp [fetchQuery, h]
      · intro h
        subst h
        constructor <;> simp [fetchQuery]
    · constructor
      · intro h
        constructor <;> simp [fetchQuery, h, hs]
      · intro h
        subst h
        constructor <;> simp [fetchQuery, hs]

/-- Witness for C5: page 3 of size 10 behind a filter gives limit 10 and
offset 20; `per_page = -1` on a 42-row table gives limit 42 and no
offset. -/
theorem fetchQuery_pagination_witness :
    ((fetchQuery ["id", "text"] 42 3 10 (some "id > 5") []).limit = 10 ∧
     (fetchQuery ["id", "text"] 42 3 10 (some "id > 5") []).offset = some 20) ∧
    ((fetchQuery ["id", "text"] 42 1 (-1) none []).limit = 42 ∧
     (fetchQuery ["id", "text"] 42 1 (-1) none []).offset = none) := by
  have h1 := (fetchQuery_pagination ["id", "text"] 42 3 10 (some "id > 5") []).1
    (by decide)
  have h2 := (fetchQuery_pagination ["id", "text"] 42 1 (-1) none []).2 rfl
  exact ⟨⟨h1.1, by rw [h1.2]; decide⟩, ⟨h2.1, h2.2⟩⟩

/-- The `for row in data` loop with no injected engine failure: every row
with the unique field present produces exactly one update call on the
remaining fields with the string-quoted predicate, and the count is the
number of rows. -/
theorem updateLoop_none_ok (u : Field) :
    ∀ (data : List Record) (idx : Nat),
      (∀ row ∈ data, (row.getField u).isSome) →
      updateLoop u none idx data =
        (data.map (fun row =>
          { values := row.filter (fun p => decide (p.1 ≠ u))
            whereClause := u ++ " = \"" ++ ((row.getField u).getD "") ++ "\"" }),
         .ok data.length) := by
  intro data
  induction data with
  | nil => intro idx _; rfl
  | cons row rest ih =>
    intro idx hall
    rcases Option.isSome_iff_exists.mp (hall row (List.mem_cons_self _ _)) with ⟨v, hv⟩
    rw [updateLoop, updateRow, hv]
    simp only []
    rw [if_neg (by simp), ih (idx + 1) (fun r hr => hall r (List.mem_cons_of_mem _ hr))]
    simp [hv]

/-- C6: with a non-empty unique field and no engine error, `update_data`
issues one `table.update` per input record — patching the non-unique
fields where `unique_field = "value"` matches — and returns the number of
input records. -/
theorem updateData_one_call_per_record (data : List Record) (u : Field)
    (hu : u ≠ "") (hall : ∀ row ∈ data, (row.getField u).isSome) :
    (updateData data u none).2 = .ok data.length ∧
    (updateData data u none).1 = data.map (fun row =>
      { values := row.filter (fun p => decide (p.1 ≠ u))
        whereClause := u ++ " = \"" ++ ((row.getField u).getD "") ++ "\"" }) := by
  rw [updateData, if_neg hu, updateLoop_none_ok u data 0 hall]
  exact ⟨rfl, rfl⟩

/-- Witness for C6: one record patching `text` keyed on `id = "a"` issues
exactly that call and returns 1. -/
theorem updateData_one_call_per_record_witness :
    (updateData [[("id", "a"), ("text", "x")]] "id" none).2 = .ok 1 ∧
    (updateData [[("id", "a"), ("text", "x")]] "id" none).1 =
      [{ values := [("text", "x")], whereClause := "id = \"a\"" }] := by
  have h := updateData_one_call_per_record [[("id", "a"), ("text", "x")]] "id"
    (by decide) (by decide)
  exact ⟨by simpa using h.1, by rw [h.2]; decide⟩

/-- Keeping first occurrences and counting later occurrences partition
the rows, for any two membership-equivalent seen-key accumulators. -/
theorem dropDupAux_length_add_countDupsAux (subset : List String) :
    ∀ (l : Table) (s1 s2 : List (List (Option Value))),
      (∀ k, k ∈ s1 ↔ k ∈ s2) →
      (dropDupAux subset s1 l).length + countDupsAux subset s2 l = l.length := by
  intro l
  induction l with
  | nil => intro s1 s2 _; simp [dropDupAux, countDupsAux]
  | cons r rs ih =>
    intro s1 s2 hs
    simp only [dropDupAux, countDupsAux]
    by_cases hk : keyOf subset r ∈ s1
    · rw [if_pos hk, if_pos ((hs _).mp hk)]
      have hrec := ih s1 (keyOf subset r :: s2) (fun k =>
        ⟨fun h => List.mem_cons_of_mem _ ((hs k).mp h),
         fun h => by
          rcases List.mem_cons.mp h with h1 | h2
          · rw [h1]; exact hk
          · exact (hs k).mpr h2⟩)
      simp only [List.length_cons]
      omega
    · rw [if_neg hk, if_neg (fun h => hk ((hs _).mpr h))]
      have hrec := ih (keyOf subset r :: s1) (keyOf subset r :: s2) (fun k => by
        simp [hs k])
      simp only [List.length_cons]
      omega

theorem dropDuplicates_length (subset : List String) (t : Table) :
    (dropDuplicates subset t).length + countDups subset t = t.length :=
  dropDupAux_length_add_countDupsAux subset t [] [] (fun _ => Iff.rfl)

/-- C7: `delete_duplicates` on a table with `N` rows of which `D` are
duplicates by the subset columns (keeping first occurrences) leaves
`N - D` rows and returns `D`; with `D = 0` the table is not rewritten and
the call returns 0. -/
theorem deleteDuplicates_removes_duplicates (t : Table) (subset : List String) :
    (deleteDuplicates t subset none).ret = .ok (countDups subset t) ∧
    (deleteDuplicates t subset none).table.length
      = t.length - countDups subset t ∧
    (countDups subset t = 0 →
      (deleteDuplicates t subset none).rewrote = false ∧
      (deleteDuplicates t subset none).table = t) := by
  have key := dropDuplicates_length subset t
  by_cases hpos : t.length - (dropDuplicates subset t).length > 0
  · have hval : deleteDuplicates t subset none =
        { ret := .ok (t.length - (dropDuplicates subset t).length)
          table := dropDuplicates subset t
          rewrote := true } := by
      simp only [deleteDuplicates]
      rw [if_pos hpos]
    rw [hval]
    refine ⟨?_, ?_, ?_⟩
    · have : t.length - (dropDuplicates subset t).length = countDups subset t := by
        omega
      rw [this]
    · show (dropDuplicates subset t).length = t.length - countDups subset t
      omega
    · intro h0
      exact absurd hpos (by omega)
  · have hval : deleteDuplicates t subset none =
        { ret := .ok (t.length - (dropDuplicates subset t).length)
          table := t
          rewrote := false } := by
      simp only [deleteDuplicates]
      rw [if_neg hpos]
    rw [hval]
    have hcd : countDups subset t = 0 := by omega
    refine ⟨?_, ?_, fun _ => ⟨rfl, rfl⟩⟩
    · rw [hcd]
      have : t.length - (dropDuplicates subset t).length = 0 := by omega
      rw [this]
    · show t.length = t.length - countDups subset t
      omega

/-- Witness for C7: a two-row table with one duplicate id returns 1; a
duplicate-free one-row table is not rewritten and keeps its row. -/
theorem deleteDuplicates_removes_duplicates_witness :
    (deleteDuplicates [[("id", "a")], [("id", "a")]] ["id"] none).ret
      = .ok (countDups ["id"] [[("id", "a")], [("id", "a")]]) ∧
    (deleteDuplicates [[("id", "a")]] ["id"] none).rewrote = false ∧
    (deleteDuplicates [[("id", "a")]] ["id"] none).table = [[("id", "a")]] := by
  have h1 := deleteDuplicates_removes_duplicates [[("id", "a")], [("id", "a")]] ["id"]
  have h2 := deleteDuplicates_removes_duplicates [[("id", "a")]] ["id"]
  exact ⟨h1.1, (h2.2.2 (by decide)).1, (h2.2.2 (by decide)).2⟩

/-- C8: an empty unique-field name makes `add_data` and `update_data`
raise `ValueError` before touching the table: the table is unchanged,
nothing is appended, and no update call is issued. -/
theorem emptyUniqueField_rejected (t : Table) (data : List Record)
    (sE wE : Option String) (uE : Option Nat) :
    (addData t data "" sE wE).ret
      = .error (.valueError "Unique field must be specified to check for duplicates.") ∧
    (addData t data "" sE wE).table = t ∧
    (addData t data "" sE wE).appended = [] ∧
    (updateData data "" uE).2
      = .error (.valueError "Unique field must be specified for updates.") ∧
    (updateData data "" uE).1 = [] := by
  refine ⟨?_, ?_, ?_, ?_, ?_⟩ <;> simp [addData, updateData]

/-- C10: `create_table` catches every engine error — including the
name-collision failure of `create` mode — returning `None` with the
database unchanged, while `delete_table`, `delete_rows` and `list_tables`
re-raise engine errors. -/
theorem createTable_swallows_deleteTable_raises
    (db : DB) (name : String) (ov : Bool) (eE : Option String) (m : String)
    (cond : Record → Bool) :
    (createTable db name ov eE).1 = .ok none ∧
    (db.any (fun p => p.1 == name) = true →
      (createTable db name false none).2 = db) ∧
    (deleteTable db name (some m)).1 = .error (.engineError m) ∧
    (deleteRows db name cond (some m)).1 = .error (.engineError m) ∧
    listTables db (some m) = .error (.engineError m) := by
  refine ⟨?_, ?_, rfl, rfl, rfl⟩
  · cases eE with
    | some m2 => simp [createTable]
    | none =>
      cases h : engineCreate db name (if ov then "overwrite" else "create") <;>
        simp [createTable, h]
  · intro hname
    have hec : engineCreate db name "create"
        = .error (.engineError ("Table " ++ name ++ " already exists")) := by
      rw [engineCreate, if_pos hname]
      rfl
    simp [createTable, hec]

/-- Witness for C10: creating `docs` over an existing `docs` in
non-overwrite mode returns `None` and leaves the database unchanged,
while deleting with an engine failure propagates the error. -/
theorem createTable_swallows_witness :
    (createTable [("docs", [[("id", "a")]])] "docs" false none).1 = .ok none ∧
    (createTable [("docs", [[("id", "a")]])] "docs" false none).2
      = [("docs", [[("id", "a")]])] ∧
    (deleteTable [("docs", [[("id", "a")]])] "docs" (some "boom")).1
      = .error (.engineError "boom") := by
  have h := createTable_swallows_deleteTable_raises [("docs", [[("id", "a")]])]
    "docs" false none "boom" (fun _ => true)
  exact ⟨h.1, h.2.1 (by decide), h.2.2.1⟩

end LanceDBManager
